import Mathlib

/-!
Shallow embedding of the fixed-point PLL in `src/pll_q30.c` / `src/pll_q30.h`.

Conventions:
* `int32_t` values are modelled as `Int`; casts that truncate to 32 bits are
  made explicit through `toInt32` (two's-complement wrap).
* `uint32_t` values (the phase accumulator `theta_q30`) are modelled as `Nat`;
  the cast `(uint32_t)x` is `toUInt32`.
* `int64_t` intermediates never overflow in this code (products of two 32-bit
  values, sums of two 32-bit values), so they are exact `Int` arithmetic.
* Arithmetic right shift of a signed value is floor division (`Int.fdiv`);
  C's `/` on signed operands truncates toward zero (`Int.tdiv`).
* The 1024-entry sine table lives in `sine_q230_1024.h`, which is not part of
  the sources; every definition that reads it takes the table as an explicit
  parameter `tbl : Nat → Int`.
-/

namespace PllQ30

/-- Two's-complement wrap of an integer into the signed 32-bit range,
modelling a C cast `(int32_t)` of a wider value (and the wrap produced by
overflowing signed 32-bit operations). -/
def toInt32 (x : Int) : Int := (x + 2 ^ 31) % 2 ^ 32 - 2 ^ 31

/-- Modelling of the C cast `(uint32_t)x` applied to a signed value:
reduction modulo 2^32. -/
def toUInt32 (x : Int) : Nat := (x % 2 ^ 32).toNat

/-- Embedding of `sat32` (src/pll_q30.c lines 13-18): clamp a 64-bit signed
value into the 32-bit signed range. -/
def sat32 (x : Int) : Int :=
  if x > 2147483647 then 2147483647
  else if x < -2147483648 then -2147483648
  else x

/-- Embedding of `mul_q30` (src/pll_q30.c lines 21-26): exact 64-bit product
of two Q2.30 operands, arithmetic shift right by 30 (floor division), then
saturation. -/
def mul_q30 (a b : Int) : Int := sat32 (Int.fdiv (a * b) (2 ^ 30))

/-- The table size `SINE_N` (src/pll_q30.c line 9). -/
def SINE_N : Nat := 1024

/-- The 10-bit table index computed from `theta_q30`
(src/pll_q30.c line 31): `(theta_q30 >> (30 - 10)) & (SINE_N - 1)`. -/
def sine_idx (theta_q30 : Nat) : Nat := (theta_q30 >>> (30 - 10)) &&& (SINE_N - 1)

/-- Embedding of `sincos_from_theta_turn_q30` (src/pll_q30.c lines 29-34):
returns the pair (sin, cos) read from the table. -/
def sincos_from_theta_turn_q30 (tbl : Nat → Int) (theta_q30 : Nat) : Int × Int :=
  let idx := sine_idx theta_q30
  (tbl idx, tbl ((idx + 256) &&& (SINE_N - 1)))

/-- Embedding of `pll_q30_state_t` (src/pll_q30.h lines 8-28). -/
structure pll_q30_state_t where
  kp_q30 : Int
  ki_q30 : Int
  theta_q30 : Nat
  integrator_q30 : Int
  sin_q30 : Int
  cos_q30 : Int
  out_f_q25 : Int
  delta_f_q25 : Int
deriving Repr, DecidableEq

/-- Embedding of `pll_q30_init` (src/pll_q30.c lines 36-49) in the non-null
case: zero-initialize the struct, store the gains, reset `theta_q30` and
`integrator_q30`, set `out_f_q25 = 50 << 25` and `delta_f_q25 = 0`
(`sin_q30`/`cos_q30` keep the zero from `{0}`). -/
def pll_q30_init (kp_q30 ki_q30 : Int) : pll_q30_state_t where
  kp_q30 := kp_q30
  ki_q30 := ki_q30
  theta_q30 := 0
  integrator_q30 := 0
  sin_q30 := 0
  cos_q30 := 0
  out_f_q25 := 50 * 2 ^ 25
  delta_f_q25 := 0

/-- The compile-time sample rate `FS_HZ = 40000` (src/pll_q30.c line 62). -/
def FS_HZ : Int := 40000

/-- The input rescaling `(int32_t)(x_q22 << 8)` (src/pll_q30.c line 68):
left shift by 8 of a signed 32-bit value; an overflowing shift wraps in
two's complement. -/
def x22_to_x30 (x_q22 : Int) : Int := toInt32 (x_q22 * 2 ^ 8)

/-- Embedding of `pll_q30_step` (src/pll_q30.c lines 58-94), following the C
statement by statement:
1. sin/cos from theta; 2. `x_q30 = (int32_t)(x_q22 << 8)`;
3. `qerr = -mul_q30(x_q30, sin)` (int negation can wrap at INT32_MIN);
4. `p`, integrator accumulate-then-saturate, `u`;
5. `delta_f = sat32(u >> 5)`; 6. `out_f = (int32_t)(50 << 25) + delta_f`
(plain 32-bit addition); 7. `num = ((int64_t)f) << 5`,
`phase_inc = (int32_t)(num / FS_HZ)` (truncating division);
8. `theta = (theta + (uint32_t)phase_inc) & 0x3FFFFFFF`. -/
def pll_q30_step (tbl : Nat → Int) (st : pll_q30_state_t) (x_q22 : Int) : pll_q30_state_t :=
  let sc := sincos_from_theta_turn_q30 tbl st.theta_q30
  let x_q30 := x22_to_x30 x_q22
  let qerr_q30 := toInt32 (-(mul_q30 x_q30 sc.1))
  let p_q30 := mul_q30 st.kp_q30 qerr_q30
  let integrator' := sat32 (st.integrator_q30 + mul_q30 st.ki_q30 qerr_q30)
  let u_q30 := sat32 (p_q30 + integrator')
  let delta_f' := sat32 (Int.fdiv u_q30 (2 ^ 5))
  let f_q25 := toInt32 (50 * 2 ^ 25 + delta_f')
  let num := f_q25 * 2 ^ 5
  let phase_inc_q30 := toInt32 (Int.tdiv num FS_HZ)
  let theta' := ((st.theta_q30 + toUInt32 phase_inc_q30) % 2 ^ 32) &&& 0x3FFFFFFF
  { kp_q30 := st.kp_q30
    ki_q30 := st.ki_q30
    theta_q30 := theta'
    integrator_q30 := integrator'
    sin_q30 := sc.1
    cos_q30 := sc.2
    out_f_q25 := f_q25
    delta_f_q25 := delta_f' }

/-- Embedding of `pll_q30_step_hdl_io` (src/pll_q30.c lines 96-114): it
converts `x_q22` to Q30 (`x_q30 = (int32_t)(x_q22 << 8)`), passes that
converted value to `pll_q30_step` (whose parameter is itself a Q22 input),
and returns `st->out_f_q25` of the resulting state. -/
def pll_q30_step_hdl_io (tbl : Nat → Int) (st : pll_q30_state_t) (x_q22 : Int) :
    pll_q30_state_t × Int :=
  let x_q30 := x22_to_x30 x_q22
  let st' := pll_q30_step tbl st x_q30
  (st', st'.out_f_q25)

/-- The phase-detector error `qerr` as computed inside `pll_q30_step`
(src/pll_q30.c line 72), exposed for stating properties of the step. -/
def pll_qerr (tbl : Nat → Int) (st : pll_q30_state_t) (x_q22 : Int) : Int :=
  toInt32 (-(mul_q30 (x22_to_x30 x_q22) (sincos_from_theta_turn_q30 tbl st.theta_q30).1))

/-- The saturated PI output `u` as computed inside `pll_q30_step`
(src/pll_q30.c line 77), exposed for stating properties of the step. -/
def pll_u (tbl : Nat → Int) (st : pll_q30_state_t) (x_q22 : Int) : Int :=
  sat32 (mul_q30 st.kp_q30 (pll_qerr tbl st x_q22) +
    sat32 (st.integrator_q30 + mul_q30 st.ki_q30 (pll_qerr tbl st x_q22)))

theorem and_mask30 (n : Nat) : n &&& 0x3FFFFFFF = n % 2 ^ 30 := by
  have h : (0x3FFFFFFF : Nat) = 2 ^ 30 - 1 := by norm_num
  rw [h, Nat.and_pow_two_sub_one_eq_mod]

/-- C1: for every state with `theta_q30` in [0, 2^30) and every input sample,
`pll_q30_step` leaves `theta_q30` in [0, 2^30) (the final mask with
`0x3FFFFFFF` keeps only the low 30 bits), and `pll_q30_init` establishes
`theta_q30 = 0`; so `theta_q30 < 2^30` is an invariant preserved by every
operation. -/
theorem step_preserves_theta_range (tbl : Nat → Int) (kp ki : Int)
    (st : pll_q30_state_t) (x : Int) (h : st.theta_q30 < 2 ^ 30) :
    (pll_q30_step tbl st x).theta_q30 < 2 ^ 30 ∧ (pll_q30_init kp ki).theta_q30 = 0 := by
  refine ⟨?_, rfl⟩
  show ((st.theta_q30 + _) % 2 ^ 32) &&& 0x3FFFFFFF < 2 ^ 30
  rw [and_mask30]
  exact Nat.mod_lt _ (by norm_num)

theorem step_preserves_theta_range_witness :
    (pll_q30_init 0 0).theta_q30 < 2 ^ 30 ∧
    ((pll_q30_step (fun _ => 0) (pll_q30_init 0 0) 0).theta_q30 < 2 ^ 30 ∧
      (pll_q30_init 0 0).theta_q30 = 0) :=
  ⟨by decide, step_preserves_theta_range (fun _ => 0) 0 0 (pll_q30_init 0 0) 0 (by decide)⟩

/-- C6: `pll_q30_step` updates the PI integrator accumulate-then-saturate:
the new `integrator_q30` is `sat32` of the exact sum of the old integrator
and `mul_q30 ki qerr` (one saturation applied to the exact 64-bit sum), and
the controller output is `u = sat32 (p + integrator')` with
`p = mul_q30 kp qerr`. -/
theorem integrator_accumulate_then_saturate (tbl : Nat → Int)
    (st : pll_q30_state_t) (x : Int) :
    (pll_q30_step tbl st x).integrator_q30 =
      sat32 (st.integrator_q30 + mul_q30 st.ki_q30 (pll_qerr tbl st x)) ∧
    pll_u tbl st x =
      sat32 (mul_q30 st.kp_q30 (pll_qerr tbl st x) +
        (pll_q30_step tbl st x).integrator_q30) :=
  ⟨rfl, rfl⟩

/-- C7: `pll_q30_step` sets `delta_f_q25 = sat32 (u >> 5)` (arithmetic right
shift, i.e. floor division by 32, of the saturated PI output) and computes
`out_f_q25 = (50 << 25) + delta_f_q25` with plain two's-complement 32-bit
addition (`toInt32`, wraparound), with no saturation at that final
addition. -/
theorem delta_f_and_out_f (tbl : Nat → Int) (st : pll_q30_state_t) (x : Int) :
    (pll_q30_step tbl st x).delta_f_q25 = sat32 (Int.fdiv (pll_u tbl st x) (2 ^ 5)) ∧
    (pll_q30_step tbl st x).out_f_q25 =
      toInt32 (50 * 2 ^ 25 + (pll_q30_step tbl st x).delta_f_q25) :=
  ⟨rfl, rfl⟩

/-- C8: `pll_q30_init kp ki` produces `theta_q30 = 0`, `integrator_q30 = 0`,
`out_f_q25 = 50 << 25`, `delta_f_q25 = 0`, with the `kp_q30`/`ki_q30` fields
holding exactly the given gains; and `pll_q30_step` never modifies
`kp_q30` or `ki_q30`. -/
theorem init_fields_and_gains_immutable (kp ki : Int) (tbl : Nat → Int)
    (st : pll_q30_state_t) (x : Int) :
    (pll_q30_init kp ki).theta_q30 = 0 ∧
    (pll_q30_init kp ki).integrator_q30 = 0 ∧
    (pll_q30_init kp ki).out_f_q25 = 50 * 2 ^ 25 ∧
    (pll_q30_init kp ki).delta_f_q25 = 0 ∧
    (pll_q30_init kp ki).kp_q30 = kp ∧
    (pll_q30_init kp ki).ki_q30 = ki ∧
    (pll_q30_step tbl st x).kp_q30 = st.kp_q30 ∧
    (pll_q30_step tbl st x).ki_q30 = st.ki_q30 :=
  ⟨rfl, rfl, rfl, rfl, rfl, rfl, rfl, rfl⟩

/-- C10: for every 32-bit value of `theta_q30` (top 2 bits possibly set),
both table indices computed by `sincos_from_theta_turn_q30` — `sine_idx
theta` and `(sine_idx theta + 256) &&& (SINE_N - 1)` — are below
`SINE_N = 1024`, so both accesses of the 1024-entry table are in bounds and
the lookup is a total function of `theta` and the table. -/
theorem sincos_indices_in_bounds (tbl : Nat → Int) (theta : Nat)
    (h : theta < 2 ^ 32) :
    sine_idx theta < SINE_N ∧
    (sine_idx theta + 256) &&& (SINE_N - 1) < SINE_N ∧
    sincos_from_theta_turn_q30 tbl theta =
      (tbl (sine_idx theta), tbl ((sine_idx theta + 256) &&& (SINE_N - 1))) := by
  have h1 : ∀ n : Nat, n &&& (SINE_N - 1) < SINE_N := by
    intro n
    have h2 := @Nat.and_le_right n (SINE_N - 1)
    simp only [SINE_N] at h2 ⊢
    omega
  exact ⟨h1 _, h1 _, rfl⟩

theorem sincos_indices_in_bounds_witness :
    (2 ^ 32 - 1 : Nat) < 2 ^ 32 ∧
    (sine_idx (2 ^ 32 - 1) < SINE_N ∧
      (sine_idx (2 ^ 32 - 1) + 256) &&& (SINE_N - 1) < SINE_N ∧
      sincos_from_theta_turn_q30 (fun i => (i : Int)) (2 ^ 32 - 1) =
        ((fun i => (i : Int)) (sine_idx (2 ^ 32 - 1)),
         (fun i => (i : Int)) ((sine_idx (2 ^ 32 - 1) + 256) &&& (SINE_N - 1)))) :=
  ⟨by norm_num, sincos_indices_in_bounds (fun i => (i : Int)) (2 ^ 32 - 1) (by norm_num)⟩

theorem toInt32_bounds (z : Int) : -(2 ^ 31) ≤ toInt32 z ∧ toInt32 z < 2 ^ 31 := by
  simp only [toInt32]
  omega

theorem toInt32_eq_self (z : Int) (h1 : -(2 ^ 31) ≤ z) (h2 : z < 2 ^ 31) :
    toInt32 z = z := by
  simp only [toInt32]
  omega

theorem toUInt32_cast (z : Int) : (toUInt32 z : Int) = z % 2 ^ 32 := by
  simp only [toUInt32]
  exact Int.toNat_of_nonneg (Int.emod_nonneg _ (by norm_num))

theorem mul_q30_zero_left (b : Int) : mul_q30 0 b = 0 := by
  simp [mul_q30, Int.zero_fdiv, sat32]

theorem mul_q30_zero_right (a : Int) : mul_q30 a 0 = 0 := by
  simp [mul_q30, sat32]

/-- C4 counterexample: at input `x_q22 = 2^23` (value 2.0 in Q(9).22), the
shift by 8 lands exactly on 2^31, which does not fit in a signed 32-bit
word; the code's conversion wraps it to `-2^31`, while saturation per the
4.1 conventions would give `2^31 - 1`, so the conversion is not
saturated. -/
theorem x22_conversion_not_saturated :
    x22_to_x30 (2 ^ 23) = -(2 ^ 31) ∧
    sat32 ((2 ^ 23 : Int) * 2 ^ 8) = 2 ^ 31 - 1 ∧
    x22_to_x30 (2 ^ 23) ≠ sat32 ((2 ^ 23 : Int) * 2 ^ 8) := by
  refine ⟨by decide, by decide, by decide⟩

/-- C4 (amended): the Q(9).22 input is converted to Q2.30 by a left shift of
8 bits that preserves the represented value whenever the shifted value fits
in a signed 32-bit word; when it does not fit, the converted value wraps
modulo 2^32 in two's complement (it stays congruent to `x << 8` mod 2^32),
with no saturation applied. -/
theorem x22_conversion_amended (x : Int)
    (h1 : -(2 ^ 31) ≤ x * 2 ^ 8) (h2 : x * 2 ^ 8 < 2 ^ 31) :
    x22_to_x30 x = x * 2 ^ 8 ∧
    ∀ y : Int, x22_to_x30 y % 2 ^ 32 = (y * 2 ^ 8) % 2 ^ 32 := by
  constructor
  · simp only [x22_to_x30, toInt32]
    omega
  · intro y
    simp only [x22_to_x30, toInt32]
    omega

theorem x22_conversion_amended_witness :
    (-(2 ^ 31) ≤ (3 : Int) * 2 ^ 8 ∧ (3 : Int) * 2 ^ 8 < 2 ^ 31) ∧
    (x22_to_x30 3 = 3 * 2 ^ 8 ∧
      ∀ y : Int, x22_to_x30 y % 2 ^ 32 = (y * 2 ^ 8) % 2 ^ 32) :=
  ⟨⟨by norm_num, by norm_num⟩, x22_conversion_amended 3 (by norm_num) (by norm_num)⟩

/-- C9: for every `theta` in [0, 2^30), the cosine returned by the table
lookup at `theta` is the sine returned by the table lookup at
`(theta + 2^28) % 2^30` — a quarter-turn offset of 256 table entries,
wrapping the index past 1024. -/
theorem cos_eq_sin_quarter_turn (tbl : Nat → Int) (theta : Nat)
    (h : theta < 2 ^ 30) :
    (sincos_from_theta_turn_q30 tbl theta).2 =
      (sincos_from_theta_turn_q30 tbl ((theta + 2 ^ 28) % 2 ^ 30)).1 := by
  have e1 : ∀ n : Nat, n &&& 1023 = n % 1024 := by
    intro n
    have e2 := Nat.and_pow_two_sub_one_eq_mod n 10
    norm_num at e2
    exact e2
  simp only [sincos_from_theta_turn_q30, sine_idx, SINE_N]
  norm_num
  congr 1
  rw [Nat.shiftRight_eq_div_pow, Nat.shiftRight_eq_div_pow, e1, e1, e1]
  norm_num
  omega

theorem cos_eq_sin_quarter_turn_witness :
    (2 ^ 30 - 1 : Nat) < 2 ^ 30 ∧
    (sincos_from_theta_turn_q30 (fun i => (i : Int)) (2 ^ 30 - 1)).2 =
      (sincos_from_theta_turn_q30 (fun i => (i : Int)) (((2 ^ 30 - 1) + 2 ^ 28) % 2 ^ 30)).1 :=
  ⟨by norm_num, cos_eq_sin_quarter_turn (fun i => (i : Int)) (2 ^ 30 - 1) (by norm_num)⟩


theorem tdiv_fs_bound (a : Int) (ha1 : -(2 ^ 36) <= a) (ha2 : a <= 2 ^ 36) :
    -(2 ^ 31) <= Int.tdiv a 40000 ∧ Int.tdiv a 40000 < 2 ^ 31 := by
  have h1 := Int.natAbs_tdiv a 40000
  have h2 : a.natAbs <= 2 ^ 36 := by omega
  have h3 : (Int.tdiv a 40000).natAbs <= 2 ^ 36 / 40000 := by
    rw [h1]
    exact Nat.div_le_div_right h2
  omega

theorem mod_mod_32_30 (n : Nat) : (n % 2 ^ 32) % 2 ^ 30 = n % 2 ^ 30 :=
  Nat.mod_mod_of_dvd n (by norm_num)

/-- C5: in every invocation of `pll_q30_step`, the new phase is computed by
the exact-division variant and wrapped into 30 bits: with
`phase_inc = tdiv (out_f_q25 << 5) FS_HZ` (truncating integer division of
the freshly computed output frequency), the new `theta_q30` is
`(old theta_q30 + phase_inc) mod 2^30` (the C code masks with
`0x3FFFFFFF`, which is exactly reduction mod 2^30, applied after the
wrapping 32-bit addition). -/
theorem theta_update_exact_division (tbl : Nat → Int) (st : pll_q30_state_t)
    (x : Int) (h : st.theta_q30 < 2 ^ 32) :
    ((pll_q30_step tbl st x).theta_q30 : Int) =
      ((st.theta_q30 : Int) +
        Int.tdiv ((pll_q30_step tbl st x).out_f_q25 * 2 ^ 5) FS_HZ) % 2 ^ 30 := by
  have hf : -(2 ^ 31) <= (pll_q30_step tbl st x).out_f_q25 ∧
      (pll_q30_step tbl st x).out_f_q25 < 2 ^ 31 := by
    have e : (pll_q30_step tbl st x).out_f_q25 =
        toInt32 (50 * 2 ^ 25 + (pll_q30_step tbl st x).delta_f_q25) := rfl
    rw [e]
    exact toInt32_bounds _
  have hd : -(2 ^ 31) <= Int.tdiv ((pll_q30_step tbl st x).out_f_q25 * 2 ^ 5) FS_HZ ∧
      Int.tdiv ((pll_q30_step tbl st x).out_f_q25 * 2 ^ 5) FS_HZ < 2 ^ 31 := by
    have := tdiv_fs_bound ((pll_q30_step tbl st x).out_f_q25 * 2 ^ 5)
      (by nlinarith [hf.1, hf.2]) (by nlinarith [hf.1, hf.2])
    simpa [FS_HZ] using this
  have hstep : (pll_q30_step tbl st x).theta_q30 =
      ((st.theta_q30 +
        toUInt32 (toInt32 (Int.tdiv ((pll_q30_step tbl st x).out_f_q25 * 2 ^ 5) FS_HZ)))
          % 2 ^ 32) &&& 0x3FFFFFFF := rfl
  rw [hstep, and_mask30, mod_mod_32_30, toInt32_eq_self _ hd.1 hd.2]
  push_cast
  rw [toUInt32_cast]
  omega

theorem theta_update_exact_division_witness :
    (pll_q30_init 0 0).theta_q30 < 2 ^ 32 ∧
    (((pll_q30_step (fun _ => 0) (pll_q30_init 0 0) 0).theta_q30 : Int) =
      (((pll_q30_init 0 0).theta_q30 : Int) +
        Int.tdiv ((pll_q30_step (fun _ => 0) (pll_q30_init 0 0) 0).out_f_q25 * 2 ^ 5) FS_HZ)
          % 2 ^ 30) :=
  ⟨by decide, theta_update_exact_division (fun _ => 0) (pll_q30_init 0 0) 0 (by decide)⟩


theorem step_zero_eq (tbl : Nat → Int) (st : pll_q30_state_t)
    (h0 : st.integrator_q30 = 0) :
    pll_q30_step tbl st 0 =
      { kp_q30 := st.kp_q30
        ki_q30 := st.ki_q30
        theta_q30 := (st.theta_q30 + 1342177) % 2 ^ 30
        integrator_q30 := 0
        sin_q30 := (sincos_from_theta_turn_q30 tbl st.theta_q30).1
        cos_q30 := (sincos_from_theta_turn_q30 tbl st.theta_q30).2
        out_f_q25 := 50 * 2 ^ 25
        delta_f_q25 := 0 } := by
  have e0 : x22_to_x30 0 = 0 := by decide
  have ez : toInt32 (-(0 : Int)) = 0 := by decide
  have es : sat32 (0 + (0 : Int)) = 0 := by decide
  have efd : sat32 (Int.fdiv (0 : Int) (2 ^ 5)) = 0 := by decide
  have ef : toInt32 (50 * 2 ^ 25 + (0 : Int)) = 50 * 2 ^ 25 := by decide
  have et : toUInt32 (toInt32 (Int.tdiv ((50 * 2 ^ 25 : Int) * 2 ^ 5) FS_HZ)) = 1342177 := by
    decide
  simp only [pll_q30_step, e0, mul_q30_zero_left, ez, mul_q30_zero_right, h0, es,
    efd, ef, et, and_mask30, mod_mod_32_30]

/-- C2: starting from `pll_q30_init` with any gains, repeatedly stepping
with input sample 0 leaves `out_f_q25` equal to exactly `50 << 25` after
every step, and advances `theta_q30` by the constant increment
`(50 << 30) / 40000` (= 1342177) each step, modulo 2^30. -/
theorem zero_input_constant_f_and_increment (tbl : Nat → Int) (kp ki : Int) (n : Nat) :
    ((fun s => pll_q30_step tbl s 0)^[n + 1] (pll_q30_init kp ki)).out_f_q25 = 50 * 2 ^ 25 ∧
    ((fun s => pll_q30_step tbl s 0)^[n + 1] (pll_q30_init kp ki)).theta_q30 =
      (((fun s => pll_q30_step tbl s 0)^[n] (pll_q30_init kp ki)).theta_q30 +
        50 * 2 ^ 30 / 40000) % 2 ^ 30 := by
  have hinc : 50 * 2 ^ 30 / 40000 = (1342177 : Nat) := by norm_num
  have hint : ∀ m : Nat,
      ((fun s => pll_q30_step tbl s 0)^[m] (pll_q30_init kp ki)).integrator_q30 = 0 := by
    intro m
    induction m with
    | zero => rfl
    | succ k ih =>
      simp only [Function.iterate_succ_apply']
      rw [step_zero_eq tbl _ ih]
  rw [hinc]
  simp only [Function.iterate_succ_apply']
  rw [step_zero_eq tbl _ (hint n)]
  exact ⟨rfl, rfl⟩

theorem step_out_f_depends_only_on_sin (tbl1 tbl2 : Nat → Int)
    (st : pll_q30_state_t) (x : Int)
    (h : tbl1 (sine_idx st.theta_q30) = tbl2 (sine_idx st.theta_q30)) :
    (pll_q30_step tbl1 st x).out_f_q25 = (pll_q30_step tbl2 st x).out_f_q25 := by
  simp only [pll_q30_step, sincos_from_theta_turn_q30, h]

/-- C3: evidence that `pll_q30_step_hdl_io` does not perform the same state
update as `pll_q30_step` on the same input: it converts `x_q22` to Q30 and
then passes the converted value to `pll_q30_step`, whose parameter is
itself a Q22 input and is shifted left by 8 again. On the state
`init(kp = 2^30, ki = 0)` with `theta_q30 = 2^28` (where the sine table
holds +1.0 = 2^30, per the table's documented key points) and input
`x_q22 = 2^14`, the step's `out_f_q25` is 1677590528, while
`pll_q30_step_hdl_io` returns 1644167168 — the value for the
doubly-shifted input. -/
theorem hdl_io_double_conversion (tbl : Nat → Int) (h : tbl 256 = 2 ^ 30) :
    (pll_q30_step_hdl_io tbl { pll_q30_init (2 ^ 30) 0 with theta_q30 := 2 ^ 28 }
        (2 ^ 14)).2 = 1644167168 ∧
    (pll_q30_step tbl { pll_q30_init (2 ^ 30) 0 with theta_q30 := 2 ^ 28 }
        (2 ^ 14)).out_f_q25 = 1677590528 := by
  have hidx : sine_idx ((2 ^ 28 : Nat)) = 256 := by decide
  have key : ∀ y : Int,
      (pll_q30_step tbl { pll_q30_init (2 ^ 30) 0 with theta_q30 := 2 ^ 28 } y).out_f_q25 =
      (pll_q30_step (fun i => if i = 256 then (2 ^ 30 : Int) else 0)
        { pll_q30_init (2 ^ 30) 0 with theta_q30 := 2 ^ 28 } y).out_f_q25 := by
    intro y
    refine step_out_f_depends_only_on_sin _ _ _ y ?_
    show tbl (sine_idx (2 ^ 28)) = _
    rw [hidx, h]
    decide
  constructor
  · show (pll_q30_step tbl { pll_q30_init (2 ^ 30) 0 with theta_q30 := 2 ^ 28 }
        (x22_to_x30 (2 ^ 14))).out_f_q25 = 1644167168
    rw [key]
    decide
  · rw [key]
    decide

theorem hdl_io_double_conversion_witness :
    ((fun i => if i = 256 then (2 ^ 30 : Int) else 0) 256 = 2 ^ 30) ∧
    ((pll_q30_step_hdl_io (fun i => if i = 256 then (2 ^ 30 : Int) else 0)
        { pll_q30_init (2 ^ 30) 0 with theta_q30 := 2 ^ 28 } (2 ^ 14)).2 = 1644167168 ∧
      (pll_q30_step (fun i => if i = 256 then (2 ^ 30 : Int) else 0)
        { pll_q30_init (2 ^ 30) 0 with theta_q30 := 2 ^ 28 } (2 ^ 14)).out_f_q25 =
          1677590528) :=
  ⟨by decide, hdl_io_double_conversion (fun i => if i = 256 then (2 ^ 30 : Int) else 0)
    (by decide)⟩

end PllQ30
